import Mathlib

/-!
Verification of the `valid` schema-validation library (src/valid/types.py,
src/valid/util.py) against its natural-language specification.

The embedding models Python values as the inductive type `Value`, Python
exceptions as `PyErr` (the library's own `Error` class plus the builtin
exception kinds the library code can raise), and each type descriptor's
`_check`/`_default` methods as Lean functions over `Value`.  Floating-point
numbers and Python 2 byte/unicode encoding distinctions are outside the
model; the `Int` number descriptor, byte-string descriptor and `list`
sequence descriptor carry all the logic under study (`Float`, `Unicode`
and `Tuple` differ from them only in the concrete class used for the final
conversion).
-/

/-- A Python value, as far as the validation library inspects one:
strings, integers, booleans, lists, and string-keyed dicts (modelled as
association lists in insertion order). -/
inductive Value where
  | str : String → Value
  | int : Int → Value
  | bool : Bool → Value
  | list : List Value → Value
  | dict : List (String × Value) → Value

/-- A `(path, message)` pair as carried by `valid.types.Error`. -/
abbrev Entry := String × String

/-- The exceptions the library code can raise: its own `Error` class
(carrying the `(path, msg)` tuples), plus the Python builtins that escape
from the source (`TypeError` from `len()`/`int()` on unsupported values,
`AttributeError` from `.lower()` on a non-string, `IndexError` from
indexing an empty range or tuple). -/
inductive PyErr where
  | error : List Entry → PyErr
  | typeError : PyErr
  | attributeError : PyErr
  | indexError : PyErr
  | valueError : PyErr

mutual
/-- Python `==` on modelled values (structural equality). -/
def valueBeq : Value → Value → Bool
  | .str a, .str b => a == b
  | .int a, .int b => a == b
  | .bool a, .bool b => a == b
  | .list a, .list b => valueListBeq a b
  | .dict a, .dict b => valueDictBeq a b
  | _, _ => false
def valueListBeq : List Value → List Value → Bool
  | [], [] => true
  | x :: xs, y :: ys => valueBeq x y && valueListBeq xs ys
  | _, _ => false
def valueDictBeq : List (String × Value) → List (String × Value) → Bool
  | [], [] => true
  | (k, x) :: xs, (l, y) :: ys => k == l && valueBeq x y && valueDictBeq xs ys
  | _, _ => false
end

/-- Python `v in items` membership test, as used by `Enum._check`. -/
def valueContains (items : List Value) (v : Value) : Bool :=
  items.any (fun x => valueBeq v x)

/-- Python `len(v)`: defined for strings, lists and dicts; `none` models
the `TypeError` raised for values with no length. -/
def pyLen : Value → Option Nat
  | .str s => some s.length
  | .list l => some l.length
  | .dict d => some d.length
  | _ => none

/-- Python truthiness (`bool(v)`). -/
def pyTruthy : Value → Bool
  | .str s => !(s == "")
  | .int n => !(n == 0)
  | .bool b => b
  | .list l => !l.isEmpty
  | .dict d => !d.isEmpty

/-- Python `s.lower()` on a string, per character. -/
def pyLowerStr (s : String) : String :=
  String.mk (s.toList.map Char.toLower)

/-- Python `v.lower()`: only strings have the method; every other value
raises `AttributeError`. -/
def pyLower : Value → Except PyErr String
  | .str s => .ok (pyLowerStr s)
  | _ => .error .attributeError

mutual
/-- Python `repr`, approximated (string escaping is not modelled; the
library never relies on the exact text, it only feeds the result of
`str()` through to output values). -/
def pyRepr : Value → String
  | .str s => "'" ++ s ++ "'"
  | .int n => toString n
  | .bool b => if b then "True" else "False"
  | .list l => "[" ++ pyReprList l ++ "]"
  | .dict d => "\x7b" ++ pyReprDict d ++ "\x7d"
def pyReprList : List Value → String
  | [] => ""
  | [x] => pyRepr x
  | x :: xs => pyRepr x ++ ", " ++ pyReprList xs
def pyReprDict : List (String × Value) → String
  | [] => ""
  | [(k, x)] => "'" ++ k ++ "': " ++ pyRepr x
  | (k, x) :: xs => "'" ++ k ++ "': " ++ pyRepr x ++ ", " ++ pyReprDict xs
end

/-- Python `str(v)` (never fails on modelled values). -/
def pyStrOfValue : Value → String
  | .str s => s
  | .int n => toString n
  | .bool b => if b then "True" else "False"
  | .list l => pyRepr (.list l)
  | .dict d => pyRepr (.dict d)

/-- Base-10 digit-string to `Nat`, `none` when empty or non-digit. -/
def digitsVal (cs : List Char) : Option Nat :=
  if cs = [] then none
  else if cs.all Char.isDigit then
    some (cs.foldl (fun n c => 10 * n + (c.toNat - 48)) 0)
  else none

/-- Strip leading and trailing whitespace from a character list (the
stripping `int()` performs on its string argument). -/
def pyStrip (cs : List Char) : List Char :=
  ((cs.dropWhile Char.isWhitespace).reverse.dropWhile Char.isWhitespace).reverse

/-- Python 2 `int(s)` on a string: strip whitespace, optional sign,
base-10 digits; `none` models `ValueError`. -/
def pyParseInt (s : String) : Option Int :=
  match pyStrip s.toList with
  | '-' :: rest => (digitsVal rest).map (fun n => -(n : Int))
  | '+' :: rest => (digitsVal rest).map (fun n => (n : Int))
  | cs => (digitsVal cs).map (fun n => (n : Int))

/-- Python 2 `int(v)`: strings parse (bad strings raise `ValueError`),
ints pass through, bools convert, containers raise `TypeError`. -/
def pyInt : Value → Except PyErr Int
  | .str s =>
    match pyParseInt s with
    | some n => .ok n
    | none => .error .valueError
  | .int n => .ok n
  | .bool b => .ok (if b then 1 else 0)
  | .list _ => .error .typeError
  | .dict _ => .error .typeError

/-- Python `sep.join(seq)`. -/
def pyJoin (sep : String) : List String → String
  | [] => ""
  | [x] => x
  | x :: xs => x ++ sep ++ pyJoin sep xs

/-! ## LenRange (types.py: class LenRange) -/

/-- `LenRange`: after `__init__`, `self.word` and the inclusive range
`[min, max]` (`self.range = xrange(min, max + 1)`). -/
structure LenRange where
  word : String
  min : Nat
  max : Nat

/-- `LenRange.__init__`: `if max is None: min, max = 0, min`. -/
def LenRange.make (word : String) (min : Nat) (max : Option Nat) : LenRange :=
  match max with
  | none => ⟨word, 0, min⟩
  | some m => ⟨word, min, m⟩

/-- `LenRange._check`.  `len(v)` raising `TypeError` becomes the
"has no length defined" `Error`.  When `x not in self.range` the message
is built by three statements: `if min == max: s = 'exactly ...'` followed
by a separate `if min: s = 'between ...' else: s = 'no more than ...'`,
so the second `if`/`else` always reassigns `s` and the "exactly" phrasing
is dead.  `self.range[0]` on an empty range (`max < min`) raises
`IndexError`. -/
def LenRange.check (r : LenRange) (v : Value) : Except PyErr Value :=
  match pyLen v with
  | none => .error (.error [("", "has no length defined")])
  | some x =>
    if r.min ≤ x ∧ x ≤ r.max then .ok v
    else if r.max < r.min then .error .indexError
    else
      let _s := if r.min = r.max then "exactly " ++ toString r.min ++ " " ++ r.word else ""
      let s := if r.min ≠ 0 then "between " ++ toString r.min ++ " and " ++ toString r.max ++ " " ++ r.word
               else "no more than " ++ toString r.max ++ " " ++ r.word
      .error (.error [("", "must be " ++ s)])

/-! ## Scalar descriptors (types.py: NumberBase/Int, BoundedNumber/BoundedInt,
Bool, Enum, StrBase/Str) -/

/-- `Int._check` (`NumberBase._check` with `cls = int`): `try: return
self.cls(v) except ValueError: raise Error(...)` — only `ValueError` is
caught; `TypeError` from `int()` on a container propagates. -/
def intCheck (v : Value) : Except PyErr Value :=
  match pyInt v with
  | .ok n => .ok (.int n)
  | .error .valueError => .error (.error [("", "is not a valid int")])
  | .error e => .error e

/-- `BoundedInt._check` (`BoundedNumber._check` with `cls = int`): number
coercion first, then `if not (min <= v <= max)`. -/
def bintCheck (lo hi : Int) (v : Value) : Except PyErr Value :=
  match intCheck v with
  | .error e => .error e
  | .ok cv =>
    match cv with
    | .int n =>
      if lo ≤ n ∧ n ≤ hi then .ok (.int n)
      else .error (.error [("", "must be between " ++ toString lo ++ " and " ++ toString hi)])
    | _ => .error .typeError

/-- `Bool.falsevalues`. -/
def falsevalues : List String := ["0", "false", "no", "off"]

/-- `Bool._check`: `if not v or v.lower() in self.falsevalues: return
False; return True`.  The short-circuit means `v.lower()` only runs when
`v` is truthy; on a truthy non-string it raises `AttributeError`. -/
def boolCheck (v : Value) : Except PyErr Value :=
  if pyTruthy v = false then .ok (.bool false)
  else
    match pyLower v with
    | .ok s => if falsevalues.contains s then .ok (.bool false) else .ok (.bool true)
    | .error e => .error e

/-- `Enum._check`: `if v not in self.items: raise Error(('', 'is not a
valid value')); return v`. -/
def enumCheck (items : List Value) (v : Value) : Except PyErr Value :=
  if valueContains items v then .ok v
  else .error (.error [("", "is not a valid value")])

/-- `StrBase._check` with `cls = str`: run the length-range check, then
`str(v)` (the `Unicode` variant differs only in `cls`; Python 2
byte/unicode encoding failures are outside the model). -/
def strCheck (lr : LenRange) (v : Value) : Except PyErr Value :=
  match lr.check v with
  | .error e => .error e
  | .ok w => .ok (.str (pyStrOfValue w))

/-! ## The type-descriptor tree and the recursive check -/

/-- The default specification of an optional field: the second item of
the field's spec tuple, either the `fromtype` sentinel or a literal
value. -/
inductive DefaultSpec where
  | fromtype
  | literal (v : Value)

/-- A type descriptor usable as a field or element type: the `Base`
subclasses (with `Int`/`Str`/`List` standing for their `Float`/`Unicode`/
`Tuple` siblings, which differ only in the converting class) and `Dict`
subclasses.  A `dictT` carries, for each name in the class's `_types`
set, the spec tuple `getattr(cls, name)` resolves to — the metaclass
computation producing this list is modelled separately by
`DictType.init`/`DictClass.resolved` below. -/
inductive Typ where
  | intT
  | bintT (lo hi : Int)
  | boolT
  | enumT (items : List Value)
  | strT (lr : LenRange)
  | listT (elem : Typ) (lr : Option LenRange)
  | dictT (fields : List (String × Typ × Option DefaultSpec))

/-- The `_default` method of each descriptor: `int()` is `0`, a bounded
number's is its lower bound, `Bool`'s is `False`, `Enum`'s is `items[0]`
(`IndexError` when empty), `StrBase`'s is `defchar * self.lenrange.range[0]`
(`IndexError` on an empty range), a sequence's is the empty container and
`Dict._default` returns `{}`. -/
def typDefault : Typ → Except PyErr Value
  | .intT => .ok (.int 0)
  | .bintT lo _ => .ok (.int lo)
  | .boolT => .ok (.bool false)
  | .enumT items =>
    match items with
    | [] => .error .indexError
    | x :: _ => .ok x
  | .strT lr =>
    if lr.max < lr.min then .error .indexError
    else .ok (.str (String.mk (List.replicate lr.min '\x00')))
  | .listT _ _ => .ok (.list [])
  | .dictT _ => .ok (.dict [])

/-- Default resolution in `Dict._check`: `if default is fromtype:
ret[name] = typ._default() else: ret[name] = default`. -/
def resolveDefault (typ : Typ) (d : DefaultSpec) : Except PyErr Value :=
  match d with
  | .fromtype => typDefault typ
  | .literal x => .ok x

/-- The element loop of `SeqBase._check`: `for i, x in enumerate(v)`,
collecting coerced values in `ret` and, for elements whose check raises
`Error`, the entries re-pathed with the `[i]` prefix in `bad`; an
exception that is not an `Error` is not caught and aborts the loop.  The
per-element check results are passed in already computed (element checks
are pure and independent, so this is equivalent to computing them inside
the loop: a non-`Error` exception at element `i` yields the same
aborted result either way). -/
def seqAggregate (i : Nat) : List (Except PyErr Value) → Except PyErr (List Value × List Entry)
  | [] => .ok ([], [])
  | r :: rest =>
    match r with
    | .ok cv =>
      match seqAggregate (i + 1) rest with
      | .ok (ret, bad) => .ok (cv :: ret, bad)
      | .error e => .error e
    | .error (.error es) =>
      match seqAggregate (i + 1) rest with
      | .ok (ret, bad) =>
        .ok (ret, es.map (fun pm => ("[" ++ toString i ++ "]" ++ pm.1, pm.2)) ++ bad)
      | .error e => .error e
    | .error e => .error e

mutual
/-- The `_check` dispatch: `validate(typ, data, **kw)` calls
`typ._check(data, **kw)`; the keyword context (its one recognized key
`optional`) is threaded unchanged through every recursive call.
`List._check` (`SeqBase._check` with `cls = list`) checks the container
kind, applies the optional length range, and runs the element loop. -/
def check : Typ → Bool → Value → Except PyErr Value
  | .intT, _, v => intCheck v
  | .bintT lo hi, _, v => bintCheck lo hi v
  | .boolT, _, v => boolCheck v
  | .enumT items, _, v => enumCheck items v
  | .strT lr, _, v => strCheck lr v
  | .listT elem lr, opt, v =>
    match v with
    | .list xs =>
      match (match lr with | none => Except.ok (Value.list xs) | some r => r.check (.list xs)) with
      | .error e => .error e
      | .ok _ =>
        match seqAggregate 0 (xs.map (fun x => check elem opt x)) with
        | .error e => .error e
        | .ok (ret, bad) => if bad = [] then .ok (.list ret) else .error (.error bad)
    | _ => .error (.error [("", "is not a list")])
  | .dictT fields, opt, v =>
    match v with
    | .dict m =>
      match fieldsCheck opt m fields with
      | .error e => .error e
      | .ok (ret, bad) => if bad = [] then .ok (.dict ret) else .error (.error bad)
    | _ => .error (.error [("", "is not a dict")])

/-- The field loop of `Dict._check`: for each `name` in `cls._types` with
spec tuple `(typ)` or `(typ, default)`: a missing field is skipped when
the `optional` option is set, otherwise its default is resolved into
`ret` (optional field) or `('.name', 'is required')` is appended to `bad`
(required field); a present field is checked, the coerced value goes to
`ret` and `Error` entries are re-pathed with the `.name` prefix into
`bad`.  Exceptions other than `Error` are not caught and abort the
loop. -/
def fieldsCheck (opt : Bool) (m : List (String × Value)) :
    List (String × Typ × Option DefaultSpec) → Except PyErr (List (String × Value) × List Entry)
  | [] => .ok ([], [])
  | (name, typ, dflt) :: fs =>
    match m.lookup name with
    | none =>
      if opt then fieldsCheck opt m fs
      else
        match dflt with
        | some d =>
          match resolveDefault typ d with
          | .ok x =>
            match fieldsCheck opt m fs with
            | .ok (ret, bad) => .ok ((name, x) :: ret, bad)
            | .error e => .error e
          | .error e => .error e
        | none =>
          match fieldsCheck opt m fs with
          | .ok (ret, bad) => .ok (ret, ("." ++ name, "is required") :: bad)
          | .error e => .error e
    | some xv =>
      match check typ opt xv with
      | .ok cv =>
        match fieldsCheck opt m fs with
        | .ok (ret, bad) => .ok ((name, cv) :: ret, bad)
        | .error e => .error e
      | .error (.error es) =>
        match fieldsCheck opt m fs with
        | .ok (ret, bad) => .ok (ret, es.map (fun pm => ("." ++ name ++ pm.1, pm.2)) ++ bad)
        | .error e => .error e
      | .error e => .error e
end

/-! ## The Dict metaclass (types.py: class DictType) -/

/-- A created `Dict` subclass, as the metaclass leaves it: the `_types`
name set (modelled as a duplicate-free list, since Python set iteration
order is arbitrary) and the class attribute namespace for field names
(`getattr(cls, name)` resolves to the first entry for `name`: the class's
own declarations come first, then each base class's in declaration
order).  Only descriptor-valued attributes are modelled; the metaclass
ignores other class attributes.  Field specs are stored normalized, the
way `DictType.__init__`'s `setattr(self, name, (spec,))` leaves them:
the type descriptor plus an optional default specification. -/
structure DictClass where
  types : List String
  attrs : List (String × Typ × Option DefaultSpec)

/-- `set.add`: insert a name unless already present. -/
def setAdd (t : List String) (n : String) : List String :=
  if n ∈ t then t else t ++ [n]

/-- `DictType.__init__` for a class with base classes `bases` and
descriptor-valued declarations `dct`: `t = set(); for cls in bases:
t.update(cls._types); for name, spec in dct: t.add(name)`, normalizing
bare descriptors to one-element tuples.  Attribute lookup on the result
prefers `dct`, then the bases in order (Python's method resolution
order, which coincides with this depth-first order for the class
hierarchies without diamonds considered here). -/
def DictType.init (bases : List DictClass) (dct : List (String × Typ × Option DefaultSpec)) :
    DictClass :=
  { types := dct.foldl (fun acc nd => setAdd acc nd.1)
      (bases.foldl (fun acc c => c.types.foldl setAdd acc) [])
    attrs := dct ++ bases.flatMap (fun c => c.attrs) }

/-- The field list `Dict._check` effectively iterates over: for each
`name` in `cls._types`, the spec `getattr(cls, name)` resolves to. -/
def DictClass.resolved (c : DictClass) : List (String × Typ × Option DefaultSpec) :=
  c.types.filterMap (fun n => (c.attrs.lookup n).map (fun s => (n, s)))

/-- The descriptor a `Dict` subclass denotes when used as a type. -/
def DictClass.toTyp (c : DictClass) : Typ :=
  .dictT c.resolved

/-! ## Error.format (types.py: Error.format, util.py: kooljoin) -/

/-- `str.lstrip('.')`: drop every leading `'.'`. -/
def lstripDots (s : String) : String :=
  String.mk (s.toList.dropWhile (fun c => c = '.'))

/-- `kooljoin(word, seq)` from util.py: `word += ' '`; fewer than three
elements are joined with `' ' + word`; otherwise the last element is
prefixed with `word` and everything is comma-joined. -/
def modifyLast (f : String → String) : List String → List String
  | [] => []
  | [x] => [f x]
  | x :: xs => x :: modifyLast f xs

/-- `kooljoin` itself. -/
def kooljoin (word : String) (seq : List String) : String :=
  let word := word ++ " "
  if seq.length < 3 then pyJoin (" " ++ word) seq
  else pyJoin ", " (modifyLast (fun s => word ++ s) seq)

/-- `Error.format`: one phrase per `(path, msg)` pair — the path with
leading dots stripped (or the word `value` when that leaves nothing)
followed by the message — joined by `kooljoin('and', ...)`. -/
def Error.format (errors : List Entry) : String :=
  kooljoin "and" (errors.map (fun pm =>
    let path := lstripDots pm.1
    (if path = "" then "value" else path) ++ " " ++ pm.2))

/-! ## Auxiliary notions used to state the claims -/

/-- A check outcome the library accounts for: success, or failure by the
library's own `Error` class (as opposed to an uncaught builtin
exception). -/
def validRes : Except PyErr Value → Bool
  | .ok _ => true
  | .error (.error _) => true
  | .error _ => false

/-- Length-range admission of a list of `n` elements by an optional
`LenRange`. -/
def lenOk : Option LenRange → Nat → Bool
  | none, _ => true
  | some r, n => decide (r.min ≤ n) && decide (n ≤ r.max)

/-- Per-element error aggregation over a list: the entries of every
element whose check fails with a validation `Error`, re-pathed with the
element's zero-based `[index]` prefix, in element order. -/
def collectElemEntries (elem : Typ) (opt : Bool) (i : Nat) : List Value → List Entry
  | [] => []
  | x :: xs =>
    (match check elem opt x with
     | .error (.error es) => es.map (fun pm => ("[" ++ toString i ++ "]" ++ pm.1, pm.2))
     | _ => []) ++ collectElemEntries elem opt (i + 1) xs

/-- The successfully coerced elements of a list, in element order. -/
def okElems (elem : Typ) (opt : Bool) : List Value → List Value
  | [] => []
  | x :: xs =>
    (match check elem opt x with
     | .ok cv => [cv]
     | _ => []) ++ okElems elem opt xs

/-- Whether a field's optional default specification resolves without an
exception (`true` also for required fields, which have none). -/
def resolvable (typ : Typ) : Option DefaultSpec → Bool
  | none => true
  | some d =>
    match resolveDefault typ d with
    | .ok _ => true
    | .error _ => false

/-- The `('.name', 'is required')` entries for the required fields of a
field list, in field order. -/
def requiredEntries (fields : List (String × Typ × Option DefaultSpec)) : List Entry :=
  (fields.filter (fun f => f.2.2.isNone)).map (fun f => ("." ++ f.1, "is required"))

/-- Output of a dict check in `optional` mode: absent fields contribute
no key and no default; present fields contribute their coerced value
when their check succeeds. -/
def optRet (m : List (String × Value)) :
    List (String × Typ × Option DefaultSpec) → List (String × Value)
  | [] => []
  | (name, typ, _) :: fs =>
    match m.lookup name with
    | none => optRet m fs
    | some xv =>
      (match check typ true xv with
       | .ok cv => [(name, cv)]
       | _ => []) ++ optRet m fs

/-- Error entries of a dict check in `optional` mode: absent fields
contribute nothing; a present field whose check fails with a validation
`Error` contributes its entries re-pathed with the `.name` prefix. -/
def optBad (m : List (String × Value)) :
    List (String × Typ × Option DefaultSpec) → List Entry
  | [] => []
  | (name, typ, _) :: fs =>
    (match m.lookup name with
     | none => []
     | some xv =>
       match check typ true xv with
       | .error (.error es) => es.map (fun pm => ("." ++ name ++ pm.1, pm.2))
       | _ => []) ++ optBad m fs

/-- "Already a coerced value of the descriptor's correct concrete
semantic type, satisfying the descriptor's declared constraints", for
the scalar descriptors — with the one exclusion the code forces: the
Boolean value `true` (`Bool._check(True)` raises `AttributeError`, see
the C6 counterexample). -/
def isCoerced : Typ → Value → Bool
  | .intT, .int _ => true
  | .bintT lo hi, .int n => decide (lo ≤ n) && decide (n ≤ hi)
  | .boolT, .bool b => !b
  | .enumT items, v => valueContains items v
  | .strT lr, .str s => decide (lr.min ≤ s.length) && decide (s.length ≤ lr.max)
  | _, _ => false

/-- Container values (`list`/`dict`), the ones `int()` rejects with
`TypeError` rather than `ValueError`. -/
def isContainer : Value → Bool
  | .list _ => true
  | .dict _ => true
  | _ => false

/-! ## Spec-side restatement of the `format()` algorithm (section 4.1 of
the spec), used to settle C9 by refinement -/

/-- The phrase the spec derives from one `(path, message)` pair: strip
leading path separators, substitute `value` for an empty path, join path
and message with a space. -/
def phraseSpec (pm : Entry) : String :=
  let p := lstripDots pm.1
  (if p = "" then "value" else p) ++ " " ++ pm.2

/-- Comma-separated list-join of the second-through-last phrases with
the connector word (plus a space) before the final one. -/
def oxfordTail (word : String) : List String → String
  | [] => ""
  | [q] => (word ++ " ") ++ q
  | q :: rest => q ++ ", " ++ oxfordTail word rest

/-- The `format()` output as the spec words it: fewer than three phrases
joined with the connector word only (a single phrase as-is), three or
more comma-separated with the connector word before the final phrase. -/
def formatSpec (errors : List Entry) : String :=
  match errors.map phraseSpec with
  | [] => ""
  | [p] => p
  | [p, q] => p ++ " and " ++ q
  | p :: rest => p ++ ", " ++ oxfordTail "and" rest

/-! ## Concrete schemas appearing in the claims -/

/-- The claims' two-required-int record schema `{a: Int (required),
b: Int (required)}`. -/
def twoIntFields : List (String × Typ × Option DefaultSpec) :=
  [("a", .intT, none), ("b", .intT, none)]

/-- The parent schema of C3's example: one field `a = Str(10), 'yeah'`. -/
def parentC : DictClass :=
  DictType.init []
    [("a", .strT (LenRange.make "characters" 10 none), some (.literal (.str "yeah")))]

/-- The derived schema of C3's example: declared with parent `parentC`,
re-declaring `a = Str(10), 'ooh'`. -/
def derivedC : DictClass :=
  DictType.init [parentC]
    [("a", .strT (LenRange.make "characters" 10 none), some (.literal (.str "ooh")))]

/-! ## Theorems for the claims -/

/-- Helper for the format refinement: comma-joining a list whose last
element has been prefixed with the connector word equals the comma-list
join with the connector before the final phrase. -/
theorem pyJoin_comma_modifyLast (w : String) :
    ∀ l : List String, l ≠ [] →
      pyJoin ", " (modifyLast (fun s => (w ++ " ") ++ s) l) = oxfordTail w l := by
  intro l
  induction l with
  | nil => intro h; exact absurd rfl h
  | cons x rest ih =>
    intro _
    cases rest with
    | nil => rfl
    | cons y ys =>
      have hne : (y :: ys) ≠ ([] : List String) := by simp
      have hcons : ∃ z zs, modifyLast (fun s => (w ++ " ") ++ s) (y :: ys) = z :: zs := by
        cases ys <;> exact ⟨_, _, rfl⟩
      obtain ⟨z, zs, hz⟩ := hcons
      calc pyJoin ", " (modifyLast (fun s => (w ++ " ") ++ s) (x :: y :: ys))
          = pyJoin ", " (x :: modifyLast (fun s => (w ++ " ") ++ s) (y :: ys)) := rfl
        _ = x ++ ", " ++ pyJoin ", " (modifyLast (fun s => (w ++ " ") ++ s) (y :: ys)) := by
              rw [hz]; rfl
        _ = x ++ ", " ++ oxfordTail w (y :: ys) := by rw [ih hne]
        _ = oxfordTail w (x :: y :: ys) := rfl

/-- C5: the claim says a `LenRange` failure with `min == max` reads
"must be exactly N <unit>".  The code computes that phrasing but then
unconditionally overwrites it (`if min:` is not an `elif`), so for
`min == max == 5` — e.g. `Str(5, 5)` checking a three-character string —
the raised message is "must be between 5 and 5 characters".  This
evaluates the embedded `LenRange._check` at that failing input,
exhibiting the slip. -/
theorem c5_lenrange_exactly_branch_dead :
    LenRange.check ⟨"characters", 5, 5⟩ (.str "abc") =
      .error (.error [("", "must be between 5 and 5 characters")]) ∧
    LenRange.check ⟨"characters", 0, 4⟩ (.str "abcdef") =
      .error (.error [("", "must be no more than 4 characters")]) ∧
    LenRange.check ⟨"characters", 2, 4⟩ (.str "abcdef") =
      .error (.error [("", "must be between 2 and 4 characters")]) ∧
    LenRange.check ⟨"characters", 2, 4⟩ (.int 7) =
      .error (.error [("", "has no length defined")]) :=
  ⟨rfl, rfl, rfl, rfl⟩

/-- C9: `Error.format` builds one phrase per `(path, message)` pair —
leading path separators stripped, the word `value` substituted for an
empty path, path and message joined by a space — and joins the phrases
with the connector word only when there are fewer than three (a single
phrase as-is), and comma-separated with the connector before the final
phrase for three or more, never truncating or reordering the pairs:
it coincides with `formatSpec`, the direct transcription of the spec's
algorithm. -/
theorem c9_format_refines_spec (errors : List Entry) :
    Error.format errors = formatSpec errors := by
  have h0 : Error.format errors = kooljoin "and" (errors.map phraseSpec) := rfl
  rw [h0]
  unfold formatSpec
  rcases h : errors.map phraseSpec with _ | ⟨p, _ | ⟨q, _ | ⟨r, rest⟩⟩⟩
  · rfl
  · rfl
  · rfl
  · show kooljoin "and" (p :: q :: r :: rest) = p ++ ", " ++ oxfordTail "and" (q :: r :: rest)
    unfold kooljoin
    rw [if_neg (by simp)]
    rw [pyJoin_comma_modifyLast "and" (p :: q :: r :: rest) (by simp)]
    rfl

/-- C7 (counterexample): the claim says every conversion failure of the
`Int` number descriptor surfaces as the Error `('', 'is not a valid
int')`.  But `NumberBase._check` catches only `ValueError`, and `int([])`
raises `TypeError`: checking the empty list fails with an uncaught
`TypeError`, not a validation Error of any kind. -/
theorem c7_counterexample_typeerror :
    check .intT false (.list []) = .error .typeError ∧
    validRes (check .intT false (.list [])) = false :=
  ⟨rfl, rfl⟩

/-- C7 (amended): for every input, the `Int` descriptor's check either
returns a converted integer, or fails with exactly the single-entry
Error `('', 'is not a valid int')` (conversion failures that raise
`ValueError`, i.e. unparsable strings), or propagates `TypeError` — and
the `TypeError` outcome occurs precisely for container (`list`/`dict`)
inputs. -/
theorem c7_int_failure_taxonomy (opt : Bool) (v : Value) :
    ((∃ n, check .intT opt v = .ok (.int n)) ∨
      check .intT opt v = .error (.error [("", "is not a valid int")]) ∨
      check .intT opt v = .error .typeError) ∧
    (check .intT opt v = .error .typeError ↔ isContainer v = true) := by
  constructor
  · cases v with
    | str s =>
      rcases hp : pyParseInt s with _ | n
      · right; left; simp [check, intCheck, pyInt, hp]
      · left; exact ⟨n, by simp [check, intCheck, pyInt, hp]⟩
    | int n => left; exact ⟨n, by simp [check, intCheck, pyInt]⟩
    | bool b => left; exact ⟨if b then 1 else 0, by cases b <;> simp [check, intCheck, pyInt]⟩
    | list l => right; right; simp [check, intCheck, pyInt]
    | dict d => right; right; simp [check, intCheck, pyInt]
  · cases v with
    | str s => rcases hp : pyParseInt s with _ | n <;> simp [check, intCheck, pyInt, hp, isContainer]
    | int n => simp [check, intCheck, pyInt, isContainer]
    | bool b => cases b <;> simp [check, intCheck, pyInt, isContainer]
    | list l => simp [check, intCheck, pyInt, isContainer]
    | dict d => simp [check, intCheck, pyInt, isContainer]

/-- C8 (counterexample): the claim says the Boolean descriptor returns
true for every input that is neither falsy nor a false-token, and never
fails.  But `Bool._check` evaluates `v.lower()` on every truthy input,
so the truthy non-string `1` raises `AttributeError` instead of checking
to true. -/
theorem c8_counterexample_truthy_nonstring :
    check .boolT false (.int 1) = .error .attributeError ∧
    validRes (check .boolT false (.int 1)) = false :=
  ⟨rfl, rfl⟩

/-- C8 (amended): the Boolean descriptor's check returns false exactly
when the input is falsy/empty or is a string whose lower-casing is one
of the tokens "0", "false", "no", "off"; it returns true for every other
string; every truthy non-string input raises `AttributeError` (from
`v.lower()`); and the descriptor's default is false. -/
theorem c8_bool_characterization :
    (∀ (opt : Bool) (s : String),
        check .boolT opt (.str s) =
          .ok (.bool (!(s == "" || falsevalues.contains (pyLowerStr s))))) ∧
    (∀ (opt : Bool) (n : Int),
        check .boolT opt (.int n) =
          if n = 0 then .ok (.bool false) else .error .attributeError) ∧
    (∀ (opt b : Bool),
        check .boolT opt (.bool b) =
          if b then .error .attributeError else .ok (.bool false)) ∧
    (∀ (opt : Bool) (l : List Value),
        check .boolT opt (.list l) =
          if l.isEmpty then .ok (.bool false) else .error .attributeError) ∧
    (∀ (opt : Bool) (d : List (String × Value)),
        check .boolT opt (.dict d) =
          if d.isEmpty then .ok (.bool false) else .error .attributeError) ∧
    typDefault .boolT = .ok (.bool false) := by
  refine ⟨?_, ?_, ?_, ?_, ?_, rfl⟩
  · intro opt s
    by_cases hs : s == ""
    · simp [check, boolCheck, pyTruthy, hs]
    · by_cases hc : pyLowerStr s ∈ falsevalues <;>
        simp [check, boolCheck, pyTruthy, pyLower, hs, hc]
  · intro opt n
    by_cases hn : n = 0 <;> simp [check, boolCheck, pyTruthy, pyLower, hn]
  · intro opt b
    cases b <;> simp [check, boolCheck, pyTruthy, pyLower]
  · intro opt l
    by_cases hl : l.isEmpty <;> simp [check, boolCheck, pyTruthy, pyLower, hl]
  · intro opt d
    by_cases hd : d.isEmpty <;> simp [check, boolCheck, pyTruthy, pyLower, hd]

/-- C6 (counterexample): the claim says check is idempotent on every
already-coerced scalar value, in particular on the Boolean descriptor's
coerced value `True`.  But `Bool._check(True)` evaluates
`True.lower()` and raises `AttributeError` instead of returning the
value. -/
theorem c6_counterexample_bool_true :
    check .boolT false (.bool true) = .error .attributeError ∧
    validRes (check .boolT false (.bool true)) = false :=
  ⟨rfl, rfl⟩

/-- C6 (amended): coercion is idempotent on the scalar descriptors
except at the Boolean value true: for an `Int`, bounded-int,
enumeration or string descriptor, any already-coerced constraint-
satisfying value (and for Boolean, the value false) is returned
unchanged by check. -/
theorem c6_coercion_idempotent (t : Typ) (opt : Bool) (v : Value)
    (h : isCoerced t v = true) : check t opt v = .ok v := by
  cases t with
  | intT =>
    cases v <;> simp [isCoerced] at h
    simp [check, intCheck, pyInt]
  | bintT lo hi =>
    cases v <;> simp [isCoerced] at h
    obtain ⟨h1, h2⟩ := h
    simp [check, bintCheck, intCheck, pyInt, h1, h2]
  | boolT =>
    cases v <;> simp [isCoerced] at h
    subst h
    simp [check, boolCheck, pyTruthy]
  | enumT items =>
    simp [isCoerced] at h
    simp [check, enumCheck, h]
  | strT lr =>
    cases v <;> simp [isCoerced] at h
    obtain ⟨h1, h2⟩ := h
    simp [check, strCheck, LenRange.check, pyLen, pyStrOfValue, h1, h2]
  | listT elem lr => simp [isCoerced] at h
  | dictT fields => simp [isCoerced] at h

/-- C6 (witness): idempotence at the concrete coerced values `42` for
`Int` and `"hey"` for `Str(10)`. -/
theorem c6_coercion_idempotent_witness :
    (isCoerced .intT (.int 42) = true ∧
      check .intT false (.int 42) = .ok (.int 42)) ∧
    (isCoerced (.strT ⟨"characters", 0, 10⟩) (.str "hey") = true ∧
      check (.strT ⟨"characters", 0, 10⟩) false (.str "hey") = .ok (.str "hey")) :=
  ⟨⟨rfl, c6_coercion_idempotent _ false _ rfl⟩,
   ⟨rfl, c6_coercion_idempotent _ false _ rfl⟩⟩

/-- Helper for C1: on a field list whose required fields are all absent
and which has no other defect — absent optional fields resolve their
defaults, present (necessarily optional) fields check successfully —
the field loop of `Dict._check` succeeds in assembling some output and
collects exactly one `is required` entry per required field, in field
order. -/
theorem fieldsCheck_required_missing (m : List (String × Value)) :
    ∀ fields : List (String × Typ × Option DefaultSpec),
      (∀ f ∈ fields, f.2.2 = none → m.lookup f.1 = none) →
      (∀ f ∈ fields, m.lookup f.1 = none → resolvable f.2.1 f.2.2 = true) →
      (∀ f ∈ fields, ∀ xv, m.lookup f.1 = some xv → ∃ cv, check f.2.1 false xv = .ok cv) →
      ∃ ret, fieldsCheck false m fields = .ok (ret, requiredEntries fields) := by
  intro fields
  induction fields with
  | nil => intro _ _ _; exact ⟨[], rfl⟩
  | cons f fs ih =>
    obtain ⟨name, typ, dflt⟩ := f
    intro hra hres hok
    obtain ⟨ret, hret⟩ := ih (fun g hg => hra g (List.mem_cons_of_mem _ hg))
      (fun g hg => hres g (List.mem_cons_of_mem _ hg))
      (fun g hg => hok g (List.mem_cons_of_mem _ hg))
    rcases hl : m.lookup name with _ | xv
    · have hr : resolvable typ dflt = true := hres _ (List.mem_cons_self _ _) hl
      cases dflt with
      | none =>
        refine ⟨ret, ?_⟩
        simp only [fieldsCheck, hl, hret]
        simp [requiredEntries]
      | some d =>
        rcases hd : resolveDefault typ d with e | x
        · rw [resolvable, hd] at hr; simp at hr
        · refine ⟨(name, x) :: ret, ?_⟩
          simp only [fieldsCheck, hl, hd, hret]
          simp [requiredEntries]
    · obtain ⟨cv, hcv⟩ := hok _ (List.mem_cons_self _ _) xv hl
      have hopt : dflt ≠ none := by
        intro hd
        have habs := hra _ (List.mem_cons_self _ _) (by simp [hd])
        rw [hl] at habs
        simp at habs
      obtain ⟨d, rfl⟩ : ∃ d, dflt = some d := by
        cases dflt with
        | none => exact absurd rfl hopt
        | some d => exact ⟨d, rfl⟩
      refine ⟨(name, cv) :: ret, ?_⟩
      simp only [fieldsCheck, hl, hcv, hret]
      simp [requiredEntries]

/-- C1: for every record schema whose required fields are all absent
from the input mapping and with no other defects (absent optional fields
resolve their defaults, present fields validate), there being at least
one required field, `Dict._check` fails with an Error whose entries are
exactly one `('.field', 'is required')` per missing required field —
none swallowed, none fabricated. -/
theorem c1_dict_missing_required (fields : List (String × Typ × Option DefaultSpec))
    (m : List (String × Value))
    (hra : ∀ f ∈ fields, f.2.2 = none → m.lookup f.1 = none)
    (hres : ∀ f ∈ fields, m.lookup f.1 = none → resolvable f.2.1 f.2.2 = true)
    (hok : ∀ f ∈ fields, ∀ xv, m.lookup f.1 = some xv → ∃ cv, check f.2.1 false xv = .ok cv)
    (hreq : ∃ f ∈ fields, f.2.2 = none) :
    check (.dictT fields) false (.dict m) = .error (.error (requiredEntries fields)) := by
  obtain ⟨ret, hfc⟩ := fieldsCheck_required_missing m fields hra hres hok
  have hne : requiredEntries fields ≠ [] := by
    obtain ⟨f, hf, hf2⟩ := hreq
    unfold requiredEntries
    intro hcontra
    rw [List.map_eq_nil_iff] at hcontra
    have hmem : f ∈ fields.filter (fun g => g.2.2.isNone) :=
      List.mem_filter.mpr ⟨hf, by simp [hf2]⟩
    rw [hcontra] at hmem
    exact absurd hmem (List.not_mem_nil f)
  simp [check, hfc, hne]

/-- C1 (witness): the schema `{a: Int (required), b: Int (required)}`
checked against the empty mapping fails with exactly the two entries
`('.a', 'is required')` and `('.b', 'is required')`. -/
theorem c1_dict_missing_required_example :
    check (.dictT twoIntFields) false (.dict []) =
      .error (.error [(".a", "is required"), (".b", "is required")]) := by
  have h := c1_dict_missing_required twoIntFields []
    (by intro f _ _; rfl)
    (by simp [twoIntFields, resolvable])
    (by intro f _ xv hxv; exact absurd hxv (by simp))
    ⟨("a", .intT, none), by simp [twoIntFields]⟩
  exact h

/-- Helper for C4: in `optional` mode, provided every present field's
check either succeeds or fails with a validation `Error`, the field loop
of `Dict._check` returns exactly the coerced present fields and their
re-pathed error entries — absent fields contribute no key, no default
and no error. -/
theorem fieldsCheck_optional (m : List (String × Value)) :
    ∀ fields : List (String × Typ × Option DefaultSpec),
      (∀ f ∈ fields, ∀ xv, m.lookup f.1 = some xv → validRes (check f.2.1 true xv) = true) →
      fieldsCheck true m fields = .ok (optRet m fields, optBad m fields) := by
  intro fields
  induction fields with
  | nil => intro _; rfl
  | cons f fs ih =>
    obtain ⟨name, typ, dflt⟩ := f
    intro hv
    have ihh := ih (fun g hg xv hx => hv g (List.mem_cons_of_mem _ hg) xv hx)
    rcases hl : m.lookup name with _ | xv
    · simp only [fieldsCheck, hl, ihh]
      simp [optRet, optBad, hl]
    · have hvr := hv (name, typ, dflt) (List.mem_cons_self _ _) xv hl
      rcases hc : check typ true xv with e | cv
      · cases e with
        | error es =>
          simp only [fieldsCheck, hl, hc, ihh]
          simp [optRet, optBad, hl, hc]
        | typeError => rw [hc] at hvr; simp [validRes] at hvr
        | attributeError => rw [hc] at hvr; simp [validRes] at hvr
        | indexError => rw [hc] at hvr; simp [validRes] at hvr
        | valueError => rw [hc] at hvr; simp [validRes] at hvr
      · simp only [fieldsCheck, hl, hc, ihh]
        simp [optRet, optBad, hl, hc]

/-- C4: with the `optional` option active, `Dict._check` skips every
field absent from the input — no error, no injected default, no key in
the output — while present fields are still validated and coerced: the
result is built from the present fields alone (`optRet`/`optBad`),
succeeding exactly when every present field checks cleanly. -/
theorem c4_optional_skips_absent (fields : List (String × Typ × Option DefaultSpec))
    (m : List (String × Value))
    (hv : ∀ f ∈ fields, ∀ xv, m.lookup f.1 = some xv → validRes (check f.2.1 true xv) = true) :
    check (.dictT fields) true (.dict m) =
      if optBad m fields = [] then .ok (.dict (optRet m fields))
      else .error (.error (optBad m fields)) := by
  have hfc := fieldsCheck_optional m fields hv
  by_cases hb : optBad m fields = [] <;> simp [check, hfc, hb]

/-- C4 (witness): `{}` validated against `{a: Int (required), b: Int
(required)}` with `optional=true` yields the empty mapping, and
`{a: "1"}` yields exactly `{a: 1}`. -/
theorem c4_optional_examples :
    check (.dictT twoIntFields) true (.dict []) = .ok (.dict []) ∧
    check (.dictT twoIntFields) true (.dict [("a", .str "1")]) = .ok (.dict [("a", .int 1)]) := by
  constructor
  · have h := c4_optional_skips_absent twoIntFields []
      (by intro f _ xv hxv; exact absurd hxv (by simp))
    exact h
  · have h := c4_optional_skips_absent twoIntFields [("a", .str "1")]
      (by
        intro f hf xv hxv
        fin_cases hf
        · rw [show List.lookup "a" [("a", Value.str "1")] = some (Value.str "1") from rfl] at hxv
          cases hxv
          rfl
        · rw [show List.lookup "b" [("a", Value.str "1")] = none from rfl] at hxv
          cases hxv)
    exact h

/-- C2 (counterexample): the claim says that for every input of the
expected container kind the sequence check attempts every element and
raises a failure carrying the errors of every bad element.  But an
element whose check raises a non-`Error` exception is not caught:
checking `[[], "bad"]` against an Int-element sequence aborts with the
`TypeError` from `int([])` — element 1's error never appears and the
failure is not a validation Error at all. -/
theorem c2_counterexample_typeerror_aborts :
    check (.listT .intT none) false (.list [.list [], .str "bad"]) = .error .typeError ∧
    validRes (check (.listT .intT none) false (.list [.list [], .str "bad"])) = false :=
  ⟨rfl, rfl⟩

/-- Helper for C2: the element loop, fed the per-element check results,
returns the coerced successes in order together with every failing
element's entries re-pathed with its `[index]` prefix, provided every
element failure is a validation `Error`. -/
theorem seqAggregate_valid (elem : Typ) (opt : Bool) :
    ∀ (xs : List Value) (i : Nat),
      (∀ x ∈ xs, validRes (check elem opt x) = true) →
      seqAggregate i (xs.map (fun x => check elem opt x)) =
        .ok (okElems elem opt xs, collectElemEntries elem opt i xs) := by
  intro xs
  induction xs with
  | nil => intro i _; rfl
  | cons x rest ih =>
    intro i hv
    have hx := hv x (List.mem_cons_self _ _)
    have ihh := ih (i + 1) (fun y hy => hv y (List.mem_cons_of_mem _ hy))
    rcases hc : check elem opt x with e | cv
    · cases e with
      | error es =>
        simp only [List.map, seqAggregate, hc, ihh]
        simp [okElems, collectElemEntries, hc]
      | typeError => rw [hc] at hx; simp [validRes] at hx
      | attributeError => rw [hc] at hx; simp [validRes] at hx
      | indexError => rw [hc] at hx; simp [validRes] at hx
      | valueError => rw [hc] at hx; simp [validRes] at hx
    · simp only [List.map, seqAggregate, hc, ihh]
      simp [okElems, collectElemEntries, hc]

/-- C2 (amended): for every sequence descriptor and list input passing
the (optional) length check, provided no element's check raises a
non-validation exception, the check validates every element, prefixes
each element-level error path with the element's zero-based `[index]`,
and defers the overall failure until all elements have been attempted,
carrying the errors of every bad element (succeeding with all coerced
elements when none is bad). -/
theorem c2_seq_aggregates_all_elements (elem : Typ) (lr : Option LenRange) (opt : Bool)
    (xs : List Value)
    (hlen : lenOk lr xs.length = true)
    (hv : ∀ x ∈ xs, validRes (check elem opt x) = true) :
    check (.listT elem lr) opt (.list xs) =
      if collectElemEntries elem opt 0 xs = [] then .ok (.list (okElems elem opt xs))
      else .error (.error (collectElemEntries elem opt 0 xs)) := by
  have hagg := seqAggregate_valid elem opt xs 0 hv
  cases lr with
  | none =>
    by_cases hb : collectElemEntries elem opt 0 xs = [] <;> simp [check, hagg, hb]
  | some r =>
    have hlr : LenRange.check r (.list xs) = .ok (.list xs) := by
      simp [lenOk] at hlen
      simp [LenRange.check, pyLen, hlen.1, hlen.2]
    by_cases hb : collectElemEntries elem opt 0 xs = [] <;> simp [check, hlr, hagg, hb]

/-- C2 (witness): checking `["1", "bad"]` against an Int-element
sequence fails with the single entry `("[1]", "is not a valid int")` —
element 0 was attempted and coerced, element 1's error is reported with
its `[1]` path prefix. -/
theorem c2_seq_element_path_example :
    check (.listT .intT none) false (.list [.str "1", .str "bad"]) =
      .error (.error [("[1]", "is not a valid int")]) := by
  have h := c2_seq_aggregates_all_elements .intT none false [.str "1", .str "bad"] rfl
    (by intro x hx; fin_cases hx <;> rfl)
  exact h

/-- Helper for C3: attribute lookup in a concatenated namespace resolves
to the left part whenever the name is declared there. -/
theorem lookup_append_of_mem (dct rest : List (String × Typ × Option DefaultSpec)) (n : String)
    (h : n ∈ dct.map Prod.fst) :
    (dct ++ rest).lookup n = dct.lookup n := by
  induction dct with
  | nil => simp at h
  | cons f fs ih =>
    obtain ⟨k, spec⟩ := f
    by_cases he : n == k
    · simp [List.lookup, he]
    · have h2 : n ∈ fs.map Prod.fst := by
        simp only [List.map_cons, List.mem_cons] at h
        rcases h with h | h
        · exact absurd (by simp [h]) he
        · exact h
      simp [List.lookup, he, ih h2]

/-- Helper for C3: membership in `set.add`. -/
theorem mem_setAdd (t : List String) (n m : String) :
    m ∈ setAdd t n ↔ m ∈ t ∨ m = n := by
  unfold setAdd
  by_cases h : n ∈ t
  · simp only [if_pos h]
    constructor
    · exact Or.inl
    · rintro (hm | rfl)
      · exact hm
      · exact h
  · simp [if_neg h]

/-- Helper for C3: membership after folding `set.add` over a name
list. -/
theorem mem_foldl_setAdd (ns : List String) :
    ∀ (acc : List String) (m : String),
      m ∈ ns.foldl setAdd acc ↔ m ∈ acc ∨ m ∈ ns := by
  induction ns with
  | nil => simp
  | cons x xs ih =>
    intro acc m
    rw [List.foldl_cons, ih (setAdd acc x) m, mem_setAdd]
    simp only [List.mem_cons]
    tauto

/-- Helper for C3: membership after folding `set.add` over the names of
a declaration list. -/
theorem mem_foldl_setAdd_fst (fields : List (String × Typ × Option DefaultSpec)) :
    ∀ (acc : List String) (m : String),
      m ∈ fields.foldl (fun acc nd => setAdd acc nd.1) acc ↔
        m ∈ acc ∨ m ∈ fields.map Prod.fst := by
  induction fields with
  | nil => simp
  | cons f fs ih =>
    intro acc m
    rw [List.foldl_cons, ih (setAdd acc f.1) m, mem_setAdd]
    simp only [List.map_cons, List.mem_cons]
    tauto

/-- Helper for C3: membership after accumulating every base class's
`_types` with `t.update(cls._types)`. -/
theorem mem_foldl_bases (bases : List DictClass) :
    ∀ (acc : List String) (m : String),
      m ∈ bases.foldl (fun acc c => c.types.foldl setAdd acc) acc ↔
        m ∈ acc ∨ ∃ b ∈ bases, m ∈ b.types := by
  induction bases with
  | nil => simp
  | cons c cs ih =>
    intro acc m
    rw [List.foldl_cons, ih (c.types.foldl setAdd acc) m, mem_foldl_setAdd]
    simp only [List.mem_cons]
    constructor
    · rintro ((h | h) | ⟨b, hb, hm⟩)
      · exact Or.inl h
      · exact Or.inr ⟨c, Or.inl rfl, h⟩
      · exact Or.inr ⟨b, Or.inr hb, hm⟩
    · rintro (h | ⟨b, (rfl | hb), hm⟩)
      · exact Or.inl (Or.inl h)
      · exact Or.inl (Or.inr hm)
      · exact Or.inr ⟨b, hb, hm⟩

/-- C3: for a schema declared with parent schemas, the `_types` set the
metaclass computes is the union of the ancestors' field sets with the
class's own declarations, and for every field name the class itself
declares, attribute lookup resolves to the class's own (most-derived)
declaration, overriding any parent's. -/
theorem c3_schema_composition_override (bases : List DictClass)
    (dct : List (String × Typ × Option DefaultSpec)) (n : String)
    (hn : n ∈ dct.map Prod.fst) :
    (DictType.init bases dct).attrs.lookup n = dct.lookup n ∧
    ∀ m : String, m ∈ (DictType.init bases dct).types ↔
      (∃ b ∈ bases, m ∈ b.types) ∨ m ∈ dct.map Prod.fst := by
  constructor
  · exact lookup_append_of_mem dct _ n hn
  · intro m
    show m ∈ dct.foldl (fun acc nd => setAdd acc nd.1)
        (bases.foldl (fun acc c => c.types.foldl setAdd acc) []) ↔ _
    rw [mem_foldl_setAdd_fst, mem_foldl_bases]
    simp

/-- C3 (witness): with a parent schema declaring optional field `a`
defaulting to `"yeah"` and a derived schema re-declaring `a` defaulting
to `"ooh"`, the derived class's lookup of `a` resolves to its own
declaration, and validating the empty mapping against the derived schema
returns a mapping with `a == "ooh"`. -/
theorem c3_schema_composition_example :
    derivedC.attrs.lookup "a" =
      some (.strT (LenRange.make "characters" 10 none), some (.literal (.str "ooh"))) ∧
    check derivedC.toTyp false (.dict []) = .ok (.dict [("a", .str "ooh")]) := by
  constructor
  · exact (c3_schema_composition_override [parentC]
      [("a", .strT (LenRange.make "characters" 10 none), some (.literal (.str "ooh")))]
      "a" (by simp)).1
  · rfl
